import Mathlib

/-!
Shallow embedding of the swap execution and confirmation engine of a
Jupiter trading bot (TypeScript sources under `src/`).  Pure functions are
translated directly; stateful and effectful code is translated to explicit
state passing over oracle inputs (lists or functions describing what the
network returns on each call), and each effectful function additionally
returns the trace of external actions it performed, so that properties of
the form "X happens before Y" or "Y is never reached" can be stated as
properties of the trace.  Machine numbers are modelled as `Int`/`Nat`
(TypeScript `parseInt` results) and `ℚ` (floating point balances, used
here only through order comparisons and floors, which the code performs
exactly on the values in question).
-/

namespace JupiterBot

/-- Configuration values read from the environment by `getConfig`
(`src/utils/config.ts`).  Only the fields the embedded functions consult
are kept; `parseInt` results are modelled as integers.  The defaults in
the source are `SLIPPAGE_BPS = 100`, `BASE_SLIPPAGE_BPS = 200`,
`NEW_TOKEN_SLIPPAGE_MULTIPLIER = 5`, `MAX_SLIPPAGE_BPS = 5000`,
`MIN_SLIPPAGE_BPS = 1000`, but every field is environment-overridable with
no bounds enforcement, so the embedding keeps all of them free. -/
structure EnvConfig where
  SLIPPAGE_BPS : Int
  BASE_SLIPPAGE_BPS : Int
  NEW_TOKEN_SLIPPAGE_MULTIPLIER : Int
  MAX_SLIPPAGE_BPS : Int
  MIN_SLIPPAGE_BPS : Int
  deriving DecidableEq

/-- Embedding of `calculateSlippage` (`src/utils/slippage.ts`).  For a
regular token it returns the flat configured slippage; for a new token it
multiplies the base slippage by the multiplier, then applies `Math.min`
with `MAX_SLIPPAGE_BPS`, then `Math.max` with `MIN_SLIPPAGE_BPS`, in that
order, exactly as the source does. -/
def calculateSlippage (config : EnvConfig) (isNewToken : Bool) : Int :=
  if !isNewToken then
    config.SLIPPAGE_BPS
  else
    let baseSlippage := config.BASE_SLIPPAGE_BPS
    let calculatedSlippage := baseSlippage * config.NEW_TOKEN_SLIPPAGE_MULTIPLIER
    let calculatedSlippage := min calculatedSlippage config.MAX_SLIPPAGE_BPS
    let calculatedSlippage := max calculatedSlippage config.MIN_SLIPPAGE_BPS
    calculatedSlippage

/-- C4 counterexample: the claim states that `calculateSlippage true`
equals `min (max (base * multiplier) MIN_SLIPPAGE_BPS) MAX_SLIPPAGE_BPS`
(lower clamp applied before the upper clamp) for every configuration.
With `base = 20`, `multiplier = 1`, `MAX_SLIPPAGE_BPS = 5`,
`MIN_SLIPPAGE_BPS = 10` the code returns `10` while the claimed formula
gives `5`, because the code applies the upper clamp (`Math.min`) first and
the lower clamp (`Math.max`) second. -/
theorem calculateSlippage_claimed_clamp_order_false :
    let cfg : EnvConfig :=
      { SLIPPAGE_BPS := 100, BASE_SLIPPAGE_BPS := 20,
        NEW_TOKEN_SLIPPAGE_MULTIPLIER := 1,
        MAX_SLIPPAGE_BPS := 5, MIN_SLIPPAGE_BPS := 10 }
    calculateSlippage cfg true ≠
      min (max (cfg.BASE_SLIPPAGE_BPS * cfg.NEW_TOKEN_SLIPPAGE_MULTIPLIER)
        cfg.MIN_SLIPPAGE_BPS) cfg.MAX_SLIPPAGE_BPS := by
  decide

/-- C4 (amended): in new-asset mode `calculateSlippage` equals the product
`baseSlippage * newAssetMultiplier` with the upper clamp (`min` with
`MAX_SLIPPAGE_BPS`) applied before the lower clamp (`max` with
`MIN_SLIPPAGE_BPS`); whenever `MIN_SLIPPAGE_BPS ≤ MAX_SLIPPAGE_BPS` this
coincides with the claimed clamp `min (max product MIN) MAX` and, in
particular, the result is `MAX` when the product exceeds it, `MIN` when
the product is below it, and the product itself otherwise. -/
theorem calculateSlippage_newAsset_clamp (cfg : EnvConfig) :
    calculateSlippage cfg true =
      max (min (cfg.BASE_SLIPPAGE_BPS * cfg.NEW_TOKEN_SLIPPAGE_MULTIPLIER)
        cfg.MAX_SLIPPAGE_BPS) cfg.MIN_SLIPPAGE_BPS ∧
    (cfg.MIN_SLIPPAGE_BPS ≤ cfg.MAX_SLIPPAGE_BPS →
      calculateSlippage cfg true =
        min (max (cfg.BASE_SLIPPAGE_BPS * cfg.NEW_TOKEN_SLIPPAGE_MULTIPLIER)
          cfg.MIN_SLIPPAGE_BPS) cfg.MAX_SLIPPAGE_BPS ∧
      (cfg.MAX_SLIPPAGE_BPS < cfg.BASE_SLIPPAGE_BPS * cfg.NEW_TOKEN_SLIPPAGE_MULTIPLIER →
        calculateSlippage cfg true = cfg.MAX_SLIPPAGE_BPS) ∧
      (cfg.BASE_SLIPPAGE_BPS * cfg.NEW_TOKEN_SLIPPAGE_MULTIPLIER < cfg.MIN_SLIPPAGE_BPS →
        calculateSlippage cfg true = cfg.MIN_SLIPPAGE_BPS) ∧
      (cfg.MIN_SLIPPAGE_BPS ≤ cfg.BASE_SLIPPAGE_BPS * cfg.NEW_TOKEN_SLIPPAGE_MULTIPLIER →
        cfg.BASE_SLIPPAGE_BPS * cfg.NEW_TOKEN_SLIPPAGE_MULTIPLIER ≤ cfg.MAX_SLIPPAGE_BPS →
        calculateSlippage cfg true =
          cfg.BASE_SLIPPAGE_BPS * cfg.NEW_TOKEN_SLIPPAGE_MULTIPLIER)) := by
  unfold calculateSlippage
  simp only [Bool.not_true, Bool.false_eq_true, if_false]
  constructor
  · trivial
  · intro hle
    refine ⟨by omega, by omega, by omega, by omega⟩

/-- Concrete instance of `calculateSlippage_newAsset_clamp` at the
source-default configuration (base 200, multiplier 5, bounds 1000/5000):
the product 1000 lies within the bounds, so it is returned unchanged. -/
theorem calculateSlippage_newAsset_clamp_witness :
    (1000 : Int) ≤ 5000 ∧
    calculateSlippage
      { SLIPPAGE_BPS := 100, BASE_SLIPPAGE_BPS := 200,
        NEW_TOKEN_SLIPPAGE_MULTIPLIER := 5,
        MAX_SLIPPAGE_BPS := 5000, MIN_SLIPPAGE_BPS := 1000 } true = 1000 := by
  refine ⟨by decide, ?_⟩
  have h := (calculateSlippage_newAsset_clamp
    { SLIPPAGE_BPS := 100, BASE_SLIPPAGE_BPS := 200,
      NEW_TOKEN_SLIPPAGE_MULTIPLIER := 5,
      MAX_SLIPPAGE_BPS := 5000, MIN_SLIPPAGE_BPS := 1000 }).2 (by decide)
  exact h.2.2.2 (by decide) (by decide)

/-- Decidable equality for `Except`, used so that concrete runs of the
embedded operations can be checked by `decide`. -/
instance {E A : Type} [DecidableEq E] [DecidableEq A] : DecidableEq (Except E A) := fun x y =>
  match x, y with
  | .ok a, .ok b =>
    if h : a = b then .isTrue (congrArg Except.ok h)
    else .isFalse (fun hc => h (Except.ok.inj hc))
  | .ok _, .error _ => .isFalse (fun hc => Except.noConfusion hc)
  | .error _, .ok _ => .isFalse (fun hc => Except.noConfusion hc)
  | .error e1, .error e2 =>
    if h : e1 = e2 then .isTrue (congrArg Except.error h)
    else .isFalse (fun hc => h (Except.error.inj hc))

/-- Error raised by a retried operation, or the fallback error thrown by
`withRetry` when the loop body never ran (`lastError ?? new Error(...)` in
the source).  Error payloads are modelled by the attempt index or an
arbitrary code, which is all the claims need. -/
inductive RetryError where
  | opError (code : Nat)
  | unknownFailure
  deriving DecidableEq

/-- Observable outcome of one `withRetry` run: the value returned or the
error finally thrown, the list of back-off delays actually slept (in
milliseconds, in order), and how many times the operation was invoked. -/
structure RetryTrace (A : Type) where
  result : Except RetryError A
  delays : List Nat
  calls : Nat
  deriving DecidableEq

/-- Loop body of `withRetry` (`src/trader.ts`).  `fn` maps the 1-based
attempt index to that invocation's outcome; `attempt` is the current
attempt index and the final `Nat` argument is the number of attempts still
allowed (`maxRetries - attempt + 1`).  As in the source, the delay for the
current attempt is `initialDelay * 2 ^ (attempt - 1)` under exponential
back-off and is slept only when the attempt failed and further attempts
remain; when attempts are exhausted the last observed error is thrown. -/
def withRetryGo {A : Type} (fn : Nat → Except RetryError A) (initialDelay : Nat)
    (useExponentialBackoff : Bool) (lastError : Option RetryError) :
    Nat → Nat → RetryTrace A
  | _, 0 => { result := .error (lastError.getD .unknownFailure), delays := [], calls := 0 }
  | attempt, remaining + 1 =>
    let delayMs := if useExponentialBackoff then initialDelay * 2 ^ (attempt - 1) else initialDelay
    match fn attempt with
    | .ok result => { result := .ok result, delays := [], calls := 1 }
    | .error e =>
      if remaining = 0 then
        { result := .error e, delays := [], calls := 1 }
      else
        let t := withRetryGo fn initialDelay useExponentialBackoff (some e) (attempt + 1) remaining
        { result := t.result, delays := delayMs :: t.delays, calls := t.calls + 1 }

/-- Embedding of `withRetry` (`src/trader.ts`): runs the operation up to
`maxRetries` times starting at attempt 1 with no error observed yet.  The
source defaults are `maxRetries = 3`, `initialDelay = 1000`,
`useExponentialBackoff = true`; the embedding takes them explicitly. -/
def withRetry {A : Type} (fn : Nat → Except RetryError A) (maxRetries : Nat)
    (initialDelay : Nat) (useExponentialBackoff : Bool) : RetryTrace A :=
  withRetryGo fn initialDelay useExponentialBackoff none 1 maxRetries

/-- On an always-failing operation, `withRetryGo` performs every remaining
attempt, sleeps the exponential schedule between attempts (not after the
last), and throws the error of the final attempt. -/
theorem withRetryGo_allFail {A : Type} (e : Nat → RetryError) (d : Nat) :
    ∀ (remaining : Nat) (le0 : Option RetryError) (attempt : Nat),
    1 ≤ remaining → 1 ≤ attempt →
    withRetryGo (A := A) (fun i => .error (e i)) d true le0 attempt remaining =
      { result := .error (e (attempt + remaining - 1)),
        delays := (List.range (remaining - 1)).map (fun k => d * 2 ^ (attempt - 1 + k)),
        calls := remaining } := by
  intro remaining
  induction remaining with
  | zero => intro le0 attempt h1 _; omega
  | succ n ih =>
    intro le0 attempt _ hat
    by_cases hn : n = 0
    · subst hn
      simp [withRetryGo]
    · have hrec := ih (some (e attempt)) (attempt + 1) (by omega) (by omega)
      simp only [withRetryGo, hn, if_false, if_true, hrec, RetryTrace.mk.injEq]
      have harith : attempt + 1 + n - 1 = attempt + (n + 1) - 1 := by omega
      refine ⟨by rw [harith], ?_, trivial⟩
      have hn1 : n + 1 - 1 = (n - 1) + 1 := by omega
      rw [hn1, List.range_succ_eq_map, List.map_cons, List.map_map]
      refine congrArg₂ List.cons (by rw [Nat.add_zero]) ?_
      apply congrArg (List.map · (List.range (n - 1)))
      funext k
      simp only [Function.comp_apply]
      have hk : attempt + 1 - 1 + k = attempt - 1 + k.succ := by omega
      rw [hk]

/-- C5: for every `maxAttempts ≥ 1`, running `withRetry` with exponential
back-off on an operation that fails on every invocation invokes the
operation exactly `maxAttempts` times, sleeps
`initialDelay * 2 ^ (attempt - 1)` milliseconds after each failed attempt
except the last (so the slept delays are
`initialDelay * 2 ^ 0, ..., initialDelay * 2 ^ (maxAttempts - 2)`), and
finally throws the error observed on the last attempt. -/
theorem withRetry_allFail_exhausts_attempts {A : Type} (e : Nat → RetryError)
    (maxAttempts initialDelay : Nat) (h : 1 ≤ maxAttempts) :
    withRetry (A := A) (fun i => .error (e i)) maxAttempts initialDelay true =
      { result := .error (e maxAttempts),
        delays := (List.range (maxAttempts - 1)).map (fun k => initialDelay * 2 ^ k),
        calls := maxAttempts } := by
  unfold withRetry
  rw [withRetryGo_allFail e initialDelay maxAttempts none 1 h (by omega)]
  simp

/-- Concrete instance of `withRetry_allFail_exhausts_attempts` at the flow
defaults `maxAttempts = 3`, `initialDelay = 1000`: three invocations,
delays of 1000 ms and 2000 ms, and the third attempt's error is thrown. -/
theorem withRetry_allFail_witness :
    1 ≤ 3 ∧
    withRetry (A := Nat) (fun i => .error (.opError i)) 3 1000 true =
      { result := .error (.opError 3), delays := [1000, 2000], calls := 3 } := by
  refine ⟨by decide, ?_⟩
  rw [withRetry_allFail_exhausts_attempts (fun i => RetryError.opError i) 3 1000 (by decide)]
  decide

/-- Confirmed-transaction response as seen by the confirmation poller:
`metaErr` is the optional on-chain execution error carried in the
transaction metadata (`transactionResponse.meta?.err`). -/
structure TxResponse where
  metaErr : Option Nat
  deriving DecidableEq

/-- What the ledger RPC returns during one iteration of the confirmation
polling loop of `transactionSenderAndConfirmationWaiter`
(`src/utils/transactionSender.ts`): either `getTransaction` returns a
non-null response (`confirmed`), or it returns null and the subsequent
`getBlockHeight` call returns the given current height (`notSeen`), or
one of the RPC calls of the iteration throws (`rpcError`). -/
inductive PollEvent where
  | confirmed (tx : TxResponse)
  | notSeen (currentHeight : Nat)
  | rpcError
  deriving DecidableEq

/-- Events that do not make the polling loop return: a thrown RPC error,
or a null `getTransaction` with a current height still within the
transaction's `lastValidBlockHeight`. -/
def benignEvent (lastValidBlockHeight : Nat) : PollEvent → Bool
  | .rpcError => true
  | .notSeen currentHeight => currentHeight ≤ lastValidBlockHeight
  | .confirmed _ => false

/-- Outcome of one run of the waiter: the response returned (null is
`none`) together with the wall-clock time at which it returned. -/
structure SendResult where
  response : Option TxResponse
  finishedAt : Nat
  deriving DecidableEq

/-- The polling loop of `transactionSenderAndConfirmationWaiter`
(`src/utils/transactionSender.ts` lines 62-94).  `now` is the current
wall-clock time in milliseconds; the loop head first checks
`Date.now() < timeoutAt`.  A non-null `getTransaction` response is
returned at once; otherwise the refreshed block height is compared
against `lastValidBlockHeight` and the loop returns null on expiry; both
the remaining-null case and a thrown RPC error wait 2000 ms and poll
again.  When the timeout elapses the loop falls through and the function
returns the still-null response.  The event list is the oracle for the
successive iterations; an exhausted list also returns the null response
(the theorems always supply enough events). -/
def pollLoop (lastValidBlockHeight timeoutAt : Nat) : List PollEvent → Nat → SendResult
  | [], now => { response := none, finishedAt := now }
  | event :: rest, now =>
    if timeoutAt ≤ now then { response := none, finishedAt := now }
    else
      match event with
      | .confirmed tx => { response := some tx, finishedAt := now }
      | .notSeen currentHeight =>
        if lastValidBlockHeight < currentHeight then { response := none, finishedAt := now }
        else pollLoop lastValidBlockHeight timeoutAt rest (now + 2000)
      | .rpcError => pollLoop lastValidBlockHeight timeoutAt rest (now + 2000)

/-- Embedding of `transactionSenderAndConfirmationWaiter`
(`src/utils/transactionSender.ts`).  The broadcast
(`sendRawTransaction` with `skipPreflight: true`) happens before the loop
and is modelled at the caller (`executeSwap`) as a trace action; the
initial `getBlockHeight` before the loop only seeds a variable that every
iteration overwrites before reading, so it does not affect the result.
`timeoutIn` defaults to 60000 ms in the source; the deadline is
`startTime + timeoutIn`. -/
def transactionSenderAndConfirmationWaiter (lastValidBlockHeight timeoutIn : Nat)
    (events : List PollEvent) (startTime : Nat) : SendResult :=
  pollLoop lastValidBlockHeight (startTime + timeoutIn) events startTime

/-- A prefix of benign events (RPC errors and still-valid null polls) is
consumed by the polling loop without returning, advancing the clock by
2000 ms per event, provided the deadline is not reached meanwhile. -/
theorem pollLoop_benign_skip (lastValidBlockHeight timeoutAt : Nat) :
    ∀ (pre : List PollEvent) (tail : List PollEvent) (now : Nat),
    (∀ e ∈ pre, benignEvent lastValidBlockHeight e = true) →
    now + 2000 * pre.length < timeoutAt →
    pollLoop lastValidBlockHeight timeoutAt (pre ++ tail) now =
      pollLoop lastValidBlockHeight timeoutAt tail (now + 2000 * pre.length) := by
  intro pre
  induction pre with
  | nil => intro tail now _ _; simp
  | cons e pre ih =>
    intro tail now hpre htime
    have he : benignEvent lastValidBlockHeight e = true := hpre e (List.mem_cons_self e pre)
    have hnow : ¬ timeoutAt ≤ now := by
      simp only [List.length_cons] at htime
      omega
    have hrec := ih tail (now + 2000)
      (fun x hx => hpre x (List.mem_cons_of_mem e hx))
      (by simp only [List.length_cons] at htime; omega)
    have harith : now + 2000 + 2000 * pre.length = now + 2000 * (e :: pre).length := by
      simp only [List.length_cons]
      ring
    cases e with
    | confirmed tx => simp [benignEvent] at he
    | notSeen currentHeight =>
      have hle : currentHeight ≤ lastValidBlockHeight := by
        simpa [benignEvent] using he
      have hnotlt : ¬ lastValidBlockHeight < currentHeight := by omega
      rw [List.cons_append, pollLoop, if_neg hnow]
      simp only [hnotlt, if_false]
      rw [hrec, harith]
    | rpcError =>
      rw [List.cons_append, pollLoop, if_neg hnow]
      rw [hrec, harith]

/-- C1: if, during confirmation polling, the ledger reports a current
block height exceeding the transaction's `lastValidBlockHeight` before
any poll has returned a non-null response (the preceding iterations were
RPC errors or still-valid null polls) and before the wall-clock timeout
elapses, the waiter returns the null (not-found-before-expiry) outcome at
that very iteration, strictly before the deadline `startTime + timeoutIn`
and regardless of any later events. -/
theorem waiter_expiry_returns_null_immediately
    (lastValidBlockHeight timeoutIn startTime currentHeight : Nat)
    (pre rest : List PollEvent)
    (hpre : ∀ e ∈ pre, benignEvent lastValidBlockHeight e = true)
    (hexceeds : lastValidBlockHeight < currentHeight)
    (htime : 2000 * pre.length < timeoutIn) :
    transactionSenderAndConfirmationWaiter lastValidBlockHeight timeoutIn
        (pre ++ PollEvent.notSeen currentHeight :: rest) startTime =
      { response := none, finishedAt := startTime + 2000 * pre.length } ∧
    startTime + 2000 * pre.length < startTime + timeoutIn := by
  have hlt : startTime + 2000 * pre.length < startTime + timeoutIn := by omega
  refine ⟨?_, hlt⟩
  unfold transactionSenderAndConfirmationWaiter
  rw [pollLoop_benign_skip lastValidBlockHeight (startTime + timeoutIn) pre
    (PollEvent.notSeen currentHeight :: rest) startTime hpre hlt]
  rw [pollLoop, if_neg (by omega)]
  simp [hexceeds]

/-- Concrete instance of `waiter_expiry_returns_null_immediately`: with
`lastValidBlockHeight = 100`, a first poll seeing height 95, one RPC
error, and a third poll seeing height 101, the waiter returns null at
4000 ms, far before the default 60000 ms timeout. -/
theorem waiter_expiry_witness :
    transactionSenderAndConfirmationWaiter 100 60000
        ([.notSeen 95, .rpcError] ++ PollEvent.notSeen 101 :: []) 0 =
      { response := none, finishedAt := 0 + 2000 * [PollEvent.notSeen 95, .rpcError].length } ∧
    0 + 2000 * [PollEvent.notSeen 95, PollEvent.rpcError].length < 0 + 60000 :=
  waiter_expiry_returns_null_immediately 100 60000 0 101
    [.notSeen 95, .rpcError] [] (by decide) (by decide) (by decide)

/-- Errors thrown by `executeSwap` (`src/utils/swap.ts`): simulation
failure ("Transaction simulation failed"), a null waiter response
("Transaction not confirmed"), or confirmed metadata carrying an on-chain
error ("Transaction failed"). -/
inductive SwapError where
  | simulationFailed
  | notConfirmed
  | transactionFailed
  deriving DecidableEq

/-- Network-facing actions `executeSwap` can perform, in order. -/
inductive SwapAction where
  | simulateTransaction
  | sendRawTransaction
  deriving DecidableEq

/-- Embedding of `executeSwap` (`src/utils/swap.ts` lines 31-84), with the
trace of network actions performed.  `simulationErr` is the `err` field
of the `simulateTransaction` response; a non-null simulation error throws
before `transactionSenderAndConfirmationWaiter` is invoked, so the
broadcast never happens.  Otherwise the transaction is broadcast and
polled with the default 60000 ms timeout; a null response throws
`notConfirmed`, a response whose metadata carries an error throws
`transactionFailed`, and otherwise the signature is returned. -/
def executeSwap (simulationErr : Option Nat) (lastValidBlockHeight : Nat)
    (events : List PollEvent) (startTime : Nat) (signature : String) :
    Except SwapError String × List SwapAction :=
  match simulationErr with
  | some _ => (.error .simulationFailed, [SwapAction.simulateTransaction])
  | none =>
    let transactionResponse :=
      transactionSenderAndConfirmationWaiter lastValidBlockHeight 60000 events startTime
    match transactionResponse.response with
    | none =>
      (.error .notConfirmed, [SwapAction.simulateTransaction, SwapAction.sendRawTransaction])
    | some tx =>
      match tx.metaErr with
      | some _ =>
        (.error .transactionFailed, [SwapAction.simulateTransaction, SwapAction.sendRawTransaction])
      | none =>
        (.ok signature, [SwapAction.simulateTransaction, SwapAction.sendRawTransaction])

/-- C2: whenever the pre-submission simulation reports an error,
`executeSwap` throws the simulation-failure error and its action trace
never reaches `sendRawTransaction`: the transaction is not broadcast in
that execution. -/
theorem executeSwap_simulationError_never_broadcasts
    (errCode lastValidBlockHeight startTime : Nat) (events : List PollEvent)
    (signature : String) :
    (executeSwap (some errCode) lastValidBlockHeight events startTime signature).1 =
      .error .simulationFailed ∧
    SwapAction.sendRawTransaction ∉
      (executeSwap (some errCode) lastValidBlockHeight events startTime signature).2 := by
  refine ⟨rfl, ?_⟩
  simp [executeSwap]

/-- Concrete instance of `executeSwap_simulationError_never_broadcasts`
at simulation error code 7. -/
theorem executeSwap_simulationError_witness :
    (executeSwap (some 7) 100 [] 0 "sig").1 = .error .simulationFailed ∧
    SwapAction.sendRawTransaction ∉ (executeSwap (some 7) 100 [] 0 "sig").2 :=
  executeSwap_simulationError_never_broadcasts 7 100 0 [] "sig"

/-- C3: when confirmation polling observes a confirmed transaction whose
metadata carries an on-chain execution error, the waiter returns that
confirmed-with-error response at that very iteration — independently of
any later events, so no internal retry happens at this layer — and
`executeSwap` treats it as a definite failure by throwing
`transactionFailed` rather than reporting success. -/
theorem waiter_confirmedWithError_returned_and_thrown
    (lastValidBlockHeight startTime errCode : Nat) (tx : TxResponse)
    (pre rest : List PollEvent) (signature : String)
    (hpre : ∀ e ∈ pre, benignEvent lastValidBlockHeight e = true)
    (hmeta : tx.metaErr = some errCode)
    (htime : 2000 * pre.length < 60000) :
    transactionSenderAndConfirmationWaiter lastValidBlockHeight 60000
        (pre ++ PollEvent.confirmed tx :: rest) startTime =
      { response := some tx, finishedAt := startTime + 2000 * pre.length } ∧
    (executeSwap none lastValidBlockHeight (pre ++ PollEvent.confirmed tx :: rest)
        startTime signature).1 = .error .transactionFailed := by
  have hlt : startTime + 2000 * pre.length < startTime + 60000 := by omega
  have hwaiter : transactionSenderAndConfirmationWaiter lastValidBlockHeight 60000
      (pre ++ PollEvent.confirmed tx :: rest) startTime =
      { response := some tx, finishedAt := startTime + 2000 * pre.length } := by
    unfold transactionSenderAndConfirmationWaiter
    rw [pollLoop_benign_skip lastValidBlockHeight (startTime + 60000) pre
      (PollEvent.confirmed tx :: rest) startTime hpre hlt]
    rw [pollLoop, if_neg (by omega)]
  refine ⟨hwaiter, ?_⟩
  simp [executeSwap, hwaiter, hmeta]

/-- Concrete instance of `waiter_confirmedWithError_returned_and_thrown`:
after one still-valid null poll, the transaction confirms with on-chain
error code 6; the waiter hands it back at 2000 ms and `executeSwap`
throws the transaction-failed error. -/
theorem waiter_confirmedWithError_witness :
    transactionSenderAndConfirmationWaiter 100 60000
        ([.notSeen 95] ++ PollEvent.confirmed { metaErr := some 6 } :: []) 0 =
      { response := some { metaErr := some 6 },
        finishedAt := 0 + 2000 * [PollEvent.notSeen 95].length } ∧
    (executeSwap none 100 ([.notSeen 95] ++ PollEvent.confirmed { metaErr := some 6 } :: [])
        0 "sig").1 = .error .transactionFailed :=
  waiter_confirmedWithError_returned_and_thrown 100 0 6 { metaErr := some 6 }
    [.notSeen 95] [] "sig" (by decide) rfl (by decide)

/-- The native-asset mint address (`src/utils/config.ts`). -/
def SOL_MINT : String := "So11111111111111111111111111111111111111112"

/-- The native asset has 9 decimals (`src/utils/config.ts`). -/
def SOL_DECIMALS : Nat := 9

/-- How the `getTokenAccountBalance` RPC call can fail: the associated
token account does not exist (the error message contains
"could not find account", absorbed by the inner catch), or any other RPC
error (rethrown by the inner catch and absorbed by the outer catch). -/
inductive TokenAccountError where
  | couldNotFindAccount
  | otherRpcError
  deriving DecidableEq

/-- Oracle for the two balance-reading RPC calls `getTokenBalance` can
make: `getBalance` for the native asset (lamports) and
`getTokenAccountBalance` for an SPL token (UI amount, a decimal number
modelled as a rational). -/
structure LedgerBalanceOracle where
  solLamports : Except Unit Nat
  tokenAccountBalance : Except TokenAccountError ℚ
  deriving DecidableEq

/-- Embedding of `getTokenBalance` (`src/utils/tokens.ts` lines 48-81).
For the native mint it converts lamports to units; for an SPL token it
returns the UI amount.  Every error path returns 0: a missing token
account returns 0 from the inner catch, and any other error is rethrown
and caught by the outer catch, which also returns 0. -/
def getTokenBalance (oracle : LedgerBalanceOracle) (tokenMint : String) : ℚ :=
  if tokenMint = SOL_MINT then
    match oracle.solLamports with
    | .ok solBalance => (solBalance : ℚ) / 10 ^ SOL_DECIMALS
    | .error _ => 0
  else
    match oracle.tokenAccountBalance with
    | .ok uiAmount => uiAmount
    | .error .couldNotFindAccount => 0
    | .error .otherRpcError => 0

/-- Quote object as used by the validation checks: the aggregator returns
`outAmount` as a decimal string, or the field may be absent.  `none`
models an absent field; `some s` a present string `s`. -/
structure Quote where
  outAmount : Option String
  deriving DecidableEq

/-- JavaScript truthiness of an optional string: `undefined` and the
empty string are falsy; every non-empty string (including "0") is
truthy. -/
def jsTruthy : Option String → Bool
  | none => false
  | some s => !(s == "")

/-- Accumulator pass over decimal digits; any non-digit character makes
the parse fail. -/
def parseDigitsAux : List Char → Nat → Option Nat
  | [], acc => some acc
  | c :: cs, acc =>
    if c.isDigit then parseDigitsAux cs (acc * 10 + (c.toNat - 48)) else none

/-- Numeric value of an `outAmount` string, as `BigInt(...)` computes it
on the decimal strings the aggregator returns; the empty string gives 0,
as JavaScript `BigInt("")` does. -/
def bigIntOf (s : String) : Int :=
  match s.data with
  | [] => 0
  | '-' :: cs => - Int.ofNat ((parseDigitsAux cs 0).getD 0)
  | cs => Int.ofNat ((parseDigitsAux cs 0).getD 0)

/-- Errors thrown by `safeSellAndClose`: no balance available for the
token, no valid sell quote, or the wrapped swap failed. -/
inductive SellError where
  | noBalance
  | quoteFailed
  | swapFailed
  deriving DecidableEq

/-- External actions `safeSellAndClose` can perform, in order.
`quoteGet` carries the base-unit amount requested. -/
inductive SellAction where
  | getBalance
  | getDecimals
  | quoteGet (amount : Int)
  | executeSwapSafely
  deriving DecidableEq

/-- Embedding of `safeSellAndClose` (`src/utils/swap.ts` lines 232-277),
with the trace of external actions performed.  It reads the token
balance, throws `noBalance` if it is ≤ 0, fetches the token's decimals,
requests a full-balance sell quote for
`Math.floor(balance * 10 ^ decimals)` base units, throws `quoteFailed`
when the quote is absent or its `outAmount` field is falsy
(`!quote || !quote.outAmount`), and otherwise hands the quote to
`executeSwapSafely`, whose final outcome is the oracle `swapResult`. -/
def safeSellAndClose (oracle : LedgerBalanceOracle) (tokenMint : String)
    (decimals : Nat) (quoteResult : Option Quote)
    (swapResult : Except Unit String) : Except SellError String × List SellAction :=
  let tokenBalance := getTokenBalance oracle tokenMint
  if tokenBalance ≤ 0 then
    (.error .noBalance, [SellAction.getBalance])
  else
    let amount : Int := ⌊tokenBalance * (10 : ℚ) ^ decimals⌋
    match quoteResult with
    | none =>
      (.error .quoteFailed,
        [SellAction.getBalance, SellAction.getDecimals, SellAction.quoteGet amount])
    | some quote =>
      if jsTruthy quote.outAmount then
        match swapResult with
        | .ok signature =>
          (.ok signature,
            [SellAction.getBalance, SellAction.getDecimals, SellAction.quoteGet amount,
              SellAction.executeSwapSafely])
        | .error _ =>
          (.error .swapFailed,
            [SellAction.getBalance, SellAction.getDecimals, SellAction.quoteGet amount,
              SellAction.executeSwapSafely])
      else
        (.error .quoteFailed,
          [SellAction.getBalance, SellAction.getDecimals, SellAction.quoteGet amount])

/-- When the sampled balance is ≤ 0, `safeSellAndClose` stops at the
no-balance error with only the balance read in its trace. -/
theorem safeSellAndClose_noBalance_core (oracle : LedgerBalanceOracle)
    (tokenMint : String) (decimals : Nat) (quoteResult : Option Quote)
    (swapResult : Except Unit String)
    (h : getTokenBalance oracle tokenMint ≤ 0) :
    safeSellAndClose oracle tokenMint decimals quoteResult swapResult =
      (.error .noBalance, [SellAction.getBalance]) := by
  unfold safeSellAndClose
  rw [if_pos h]

/-- C6: whenever the sampled token balance is ≤ 0 (including exactly 0),
`safeSellAndClose` rejects with the no-balance error, and its trace shows
that no quote request was issued and the token decimals were never
fetched. -/
theorem safeSellAndClose_zeroBalance_rejects_before_quote
    (oracle : LedgerBalanceOracle) (tokenMint : String) (decimals : Nat)
    (quoteResult : Option Quote) (swapResult : Except Unit String)
    (h : getTokenBalance oracle tokenMint ≤ 0) :
    (safeSellAndClose oracle tokenMint decimals quoteResult swapResult).1 =
      .error .noBalance ∧
    (∀ a, SellAction.quoteGet a ∉
      (safeSellAndClose oracle tokenMint decimals quoteResult swapResult).2) ∧
    SellAction.getDecimals ∉
      (safeSellAndClose oracle tokenMint decimals quoteResult swapResult).2 := by
  rw [safeSellAndClose_noBalance_core oracle tokenMint decimals quoteResult swapResult h]
  refine ⟨rfl, ?_, by simp⟩
  intro a
  simp

/-- Concrete instance of
`safeSellAndClose_zeroBalance_rejects_before_quote` at a sampled balance
of exactly 0. -/
theorem safeSellAndClose_zeroBalance_witness :
    (safeSellAndClose { solLamports := .ok 0, tokenAccountBalance := .ok 0 }
      "TokenMintA" 6 none (.ok "sig")).1 = .error .noBalance ∧
    (∀ a, SellAction.quoteGet a ∉
      (safeSellAndClose { solLamports := .ok 0, tokenAccountBalance := .ok 0 }
        "TokenMintA" 6 none (.ok "sig")).2) ∧
    SellAction.getDecimals ∉
      (safeSellAndClose { solLamports := .ok 0, tokenAccountBalance := .ok 0 }
        "TokenMintA" 6 none (.ok "sig")).2 :=
  safeSellAndClose_zeroBalance_rejects_before_quote
    { solLamports := .ok 0, tokenAccountBalance := .ok 0 }
    "TokenMintA" 6 none (.ok "sig") (by decide)

/-- C10: `getTokenBalance` is total over its error cases — whatever way
the token-account balance read fails (missing account or any other RPC
error), it returns 0 instead of propagating the error; consequently
`safeSellAndClose` run over such a failing balance source rejects with
the same no-balance error as a genuinely empty holding, before any quote
request. -/
theorem getTokenBalance_errors_return_zero
    (sol : Except Unit Nat) (err : TokenAccountError) (tokenMint : String)
    (decimals : Nat) (quoteResult : Option Quote) (swapResult : Except Unit String)
    (hmint : tokenMint ≠ SOL_MINT) :
    getTokenBalance { solLamports := sol, tokenAccountBalance := .error err } tokenMint = 0 ∧
    (safeSellAndClose { solLamports := sol, tokenAccountBalance := .error err }
      tokenMint decimals quoteResult swapResult).1 = .error .noBalance ∧
    (∀ a, SellAction.quoteGet a ∉
      (safeSellAndClose { solLamports := sol, tokenAccountBalance := .error err }
        tokenMint decimals quoteResult swapResult).2) := by
  have h0 : getTokenBalance
      { solLamports := sol, tokenAccountBalance := .error err } tokenMint = 0 := by
    unfold getTokenBalance
    rw [if_neg hmint]
    cases err <;> rfl
  have hc := safeSellAndClose_noBalance_core
    { solLamports := sol, tokenAccountBalance := .error err }
    tokenMint decimals quoteResult swapResult (le_of_eq h0)
  rw [hc]
  refine ⟨h0, rfl, ?_⟩
  intro a
  simp

/-- Concrete instance of `getTokenBalance_errors_return_zero` at a
transient RPC failure: the read reports 0 and the sell path rejects with
no-balance. -/
theorem getTokenBalance_errors_witness :
    getTokenBalance
      { solLamports := .ok 5, tokenAccountBalance := .error .otherRpcError }
      "TokenMintA" = 0 ∧
    (safeSellAndClose
      { solLamports := .ok 5, tokenAccountBalance := .error .otherRpcError }
      "TokenMintA" 6 (some { outAmount := some "123" }) (.ok "sig")).1 =
        .error .noBalance ∧
    (∀ a, SellAction.quoteGet a ∉
      (safeSellAndClose
        { solLamports := .ok 5, tokenAccountBalance := .error .otherRpcError }
        "TokenMintA" 6 (some { outAmount := some "123" }) (.ok "sig")).2) :=
  getTokenBalance_errors_return_zero (.ok 5) .otherRpcError "TokenMintA" 6
    (some { outAmount := some "123" }) (.ok "sig") (by decide)

/-- Errors thrown by `buy` (`src/trader.ts`) after the mint-address
validation: an invalid quote (absent, falsy `outAmount`, or
`BigInt(outAmount) ≤ 0`), or a failure of the wrapped swap. -/
inductive BuyError where
  | invalidQuote
  | swapFailed
  deriving DecidableEq

/-- External actions `buy` can perform, in order.  `quoteGet` carries the
lamport amount requested. -/
inductive BuyAction where
  | quoteGet (amountLamports : Int)
  | executeSwapSafely
  deriving DecidableEq

/-- Embedding of the quote-validation and swap portion of `buy`
(`src/trader.ts` lines 56-75), with the trace of external actions.  The
quote is rejected when it is absent, its `outAmount` is falsy, or
`BigInt(outAmount) ≤ 0`; only then is the swap attempted, with final
outcome given by the oracle `swapResult`. -/
def buy (amountLamports : Int) (quoteResult : Option Quote)
    (swapResult : Except Unit String) : Except BuyError String × List BuyAction :=
  match quoteResult with
  | none => (.error .invalidQuote, [BuyAction.quoteGet amountLamports])
  | some quote =>
    if !(jsTruthy quote.outAmount) then
      (.error .invalidQuote, [BuyAction.quoteGet amountLamports])
    else if bigIntOf (quote.outAmount.getD "") ≤ 0 then
      (.error .invalidQuote, [BuyAction.quoteGet amountLamports])
    else
      match swapResult with
      | .ok signature =>
        (.ok signature, [BuyAction.quoteGet amountLamports, BuyAction.executeSwapSafely])
      | .error _ =>
        (.error .swapFailed, [BuyAction.quoteGet amountLamports, BuyAction.executeSwapSafely])

/-- C8 counterexample: the claim states that no path proceeds to build or
execute a swap on a quote with `outAmount ≤ 0`.  In `safeSellAndClose`
the check is only `!quote || !quote.outAmount`, and the string "0" is
truthy in JavaScript, so a present `outAmount` of "0" — whose numeric
value is ≤ 0 — passes validation and the path proceeds to
`executeSwapSafely`. -/
theorem safeSellAndClose_zeroOutAmount_swap_executed :
    bigIntOf "0" ≤ 0 ∧
    SellAction.executeSwapSafely ∈
      (safeSellAndClose { solLamports := .ok 0, tokenAccountBalance := .ok 1 }
        "TokenMintA" 6 (some { outAmount := some "0" }) (.ok "sig")).2 := by
  constructor
  · decide
  · decide

/-- C8 (amended): in the buy direction a quote that is absent, has a
falsy `outAmount`, or whose `outAmount` value is ≤ 0 is rejected with the
invalid-quote error before any swap is attempted.  In the full-balance
sell path of `safeSellAndClose`, only an absent quote or a falsy
(absent or empty) `outAmount` is rejected before the swap: in every such
case no swap is attempted and the call does not succeed — but a present
numeric `outAmount` of "0" is not caught there (see the
counterexample). -/
theorem quote_outAmount_validation_amended :
    (∀ (amountLamports : Int) (quoteResult : Option Quote)
        (swapResult : Except Unit String),
      (quoteResult = none ∨ ∃ q, quoteResult = some q ∧
        (jsTruthy q.outAmount = false ∨ bigIntOf (q.outAmount.getD "") ≤ 0)) →
      (buy amountLamports quoteResult swapResult).1 = .error .invalidQuote ∧
      BuyAction.executeSwapSafely ∉ (buy amountLamports quoteResult swapResult).2) ∧
    (∀ (oracle : LedgerBalanceOracle) (tokenMint : String) (decimals : Nat)
        (quoteResult : Option Quote) (swapResult : Except Unit String),
      (quoteResult = none ∨ ∃ q, quoteResult = some q ∧ jsTruthy q.outAmount = false) →
      SellAction.executeSwapSafely ∉
        (safeSellAndClose oracle tokenMint decimals quoteResult swapResult).2 ∧
      ∀ s, (safeSellAndClose oracle tokenMint decimals quoteResult swapResult).1 ≠
        .ok s) := by
  constructor
  · intro amountLamports quoteResult swapResult hbad
    rcases hbad with h | ⟨q, hq, hbad⟩
    · subst h
      exact ⟨rfl, by simp [buy]⟩
    · subst hq
      rcases hbad with hfalsy | hle
      · simp [buy, hfalsy]
      · by_cases htruthy : jsTruthy q.outAmount
        · simp [buy, htruthy, hle]
        · simp [buy, htruthy]
  · intro oracle tokenMint decimals quoteResult swapResult hbad
    by_cases hbal : getTokenBalance oracle tokenMint ≤ 0
    · rw [safeSellAndClose_noBalance_core oracle tokenMint decimals quoteResult
        swapResult hbal]
      exact ⟨by simp, by simp⟩
    · rcases hbad with h | ⟨q, hq, hfalsy⟩
      · subst h
        unfold safeSellAndClose
        rw [if_neg hbal]
        exact ⟨by simp, by simp⟩
      · subst hq
        unfold safeSellAndClose
        rw [if_neg hbal]
        simp only [hfalsy, Bool.false_eq_true, if_false]
        exact ⟨by simp, by simp⟩

/-- Concrete instance of `quote_outAmount_validation_amended`: a buy
quote with `outAmount` "-5" is rejected before any swap, and a sell
quote with an empty `outAmount` never reaches the swap. -/
theorem quote_outAmount_validation_witness :
    (buy 1000 (some { outAmount := some "-5" }) (.ok "sig")).1 =
      .error .invalidQuote ∧
    SellAction.executeSwapSafely ∉
      (safeSellAndClose { solLamports := .ok 0, tokenAccountBalance := .ok 1 }
        "TokenMintA" 6 (some { outAmount := some "" }) (.ok "sig")).2 :=
  ⟨(quote_outAmount_validation_amended.1 1000 (some { outAmount := some "-5" })
      (.ok "sig") (Or.inr ⟨_, rfl, Or.inr (by decide)⟩)).1,
    (quote_outAmount_validation_amended.2
      { solLamports := .ok 0, tokenAccountBalance := .ok 1 } "TokenMintA" 6
      (some { outAmount := some "" }) (.ok "sig")
      (Or.inr ⟨_, rfl, by decide⟩)).1⟩

/-- Loop of `waitForBalanceChange` (`src/utils/tokens.ts` lines 92-123).
`balanceAt` is the oracle giving the balance returned by the i-th call to
`getTokenBalance` (sample 0 is the initial one); `currentBalance` is the
last sampled value, `idx` the next sample index, and the final `Nat` the
number of loop iterations still allowed (`retries - attempts`).  The
function returns the final balance together with the number of samples
taken beyond the initial one.  It has no failure outcome: exhausting the
attempts just returns the last (possibly unchanged) balance. -/
def waitForBalanceChangeGo (balanceAt : Nat → ℚ) (initialBalance : ℚ) :
    ℚ → Nat → Nat → ℚ × Nat
  | currentBalance, _, 0 => (currentBalance, 0)
  | currentBalance, idx, remaining + 1 =>
    if currentBalance = initialBalance then
      let nextBalance := balanceAt idx
      let r := waitForBalanceChangeGo balanceAt initialBalance nextBalance (idx + 1) remaining
      (r.1, r.2 + 1)
    else
      (currentBalance, 0)

/-- Embedding of `waitForBalanceChange` (`src/utils/tokens.ts`): sample
once immediately, then repoll while the sampled amount equals the initial
sample and attempts remain.  Source defaults are `retries = 5`,
`delayMs = 2000`; the delay only spaces the samples and does not affect
the result, so it is not modelled. -/
def waitForBalanceChange (balanceAt : Nat → ℚ) (retries : Nat) : ℚ × Nat :=
  let initialBalance := balanceAt 0
  waitForBalanceChangeGo balanceAt initialBalance initialBalance 1 retries

/-- Over a constant balance source the loop always resamples, consuming
every remaining attempt. -/
theorem waitForBalanceChangeGo_constant (c : ℚ) :
    ∀ (remaining idx : Nat),
    waitForBalanceChangeGo (fun _ => c) c c idx remaining = (c, remaining) := by
  intro remaining
  induction remaining with
  | zero => intro idx; rfl
  | succ n ih =>
    intro idx
    simp [waitForBalanceChangeGo, ih (idx + 1)]

/-- C9: over a balance source that returns the same amount on every
sample, `waitForBalanceChange` with `retries = 5` performs exactly 5
samples beyond the initial one and returns the unchanged final amount;
the embedding is total, so no error outcome exists. -/
theorem waitForBalanceChange_unchanged_returns_amount (c : ℚ) :
    waitForBalanceChange (fun _ => c) 5 = (c, 5) :=
  waitForBalanceChangeGo_constant c 5 1

/-- Concrete instance of `waitForBalanceChange_unchanged_returns_amount`
at a constant balance of 7/2 units. -/
theorem waitForBalanceChange_unchanged_witness :
    waitForBalanceChange (fun _ => (7 : ℚ) / 2) 5 = ((7 : ℚ) / 2, 5) :=
  waitForBalanceChange_unchanged_returns_amount ((7 : ℚ) / 2)

/-- The mutable process environment as far as the buy step of
`buyAndSellFlow` touches it: the shared configured buy amount
(`process.env.BUY_AMOUNT_SOL`, a string). -/
structure ProcessEnv where
  BUY_AMOUNT_SOL : String
  deriving DecidableEq

/-- Embedding of the buy step of `buyAndSellFlow` (`src/trader.ts` lines
243-265) as a state transformer on the process environment.  The original
buy amount is saved; if an override was passed, the shared environment
variable is set to it; the retried buy then runs, with final outcome
given by the oracle `buyOutcome`.  On failure the surrounding catch logs
and rethrows, so control leaves the function before the restore statement
(there is no finally); only on success does the restore of the original
value execute. -/
def buyAndSellFlowBuyStep (env : ProcessEnv) (buyAmountSOL : Option String)
    (buyOutcome : Except Unit String) : Except Unit String × ProcessEnv :=
  let originalBuyAmount := env.BUY_AMOUNT_SOL
  let env1 :=
    match buyAmountSOL with
    | some v => { env with BUY_AMOUNT_SOL := v }
    | none => env
  match buyOutcome with
  | .error e => (.error e, env1)
  | .ok buyTx =>
    let env2 :=
      match buyAmountSOL with
      | some _ => { env1 with BUY_AMOUNT_SOL := originalBuyAmount }
      | none => env1
    (.ok buyTx, env2)

/-- C7 evaluation at the failing input: starting from a configured buy
amount of "0.1" with an override of "0.5", a failed buy leaves the shared
buy amount at the override value "0.5" — it is not restored, because the
catch rethrows before the restore statement runs — whereas a successful
buy restores it to "0.1". -/
theorem buyStep_override_not_restored_on_failure :
    (buyAndSellFlowBuyStep { BUY_AMOUNT_SOL := "0.1" } (some "0.5")
      (.error ())).2.BUY_AMOUNT_SOL = "0.5" ∧
    (buyAndSellFlowBuyStep { BUY_AMOUNT_SOL := "0.1" } (some "0.5")
      (.ok "sig")).2.BUY_AMOUNT_SOL = "0.1" := by
  decide

end JupiterBot
